import Mathlib

/-!
Shallow embedding of the AI code-complexity analyzer engine
(`ComplexityDetector` of src/utils/complexityDetector.ts and `AIOptimizer` of
src/utils/aiOptimizer.ts).  Source text is modelled as `List Char`; the
JavaScript regular expressions used by the engine are embedded as decidable
substring-search functions whose semantics follow `RegExp.test` (existence of a
match anywhere in the line).  All definitions are computable so that concrete
inputs can be evaluated by `decide`.
-/

namespace CodeAnalysis

/-- Left brace character, written via its code point. -/
def lbrace : Char := Char.ofNat 123

/-- Right brace character, written via its code point. -/
def rbrace : Char := Char.ofNat 125

/-- Single-quote character, written via its code point. -/
def squote : Char := Char.ofNat 39

/-- Double-quote character, written via its code point. -/
def dquote : Char := Char.ofNat 34

/-- JavaScript regex word character class `\w` (letters, digits, underscore). -/
def isWordChar (c : Char) : Bool :=
  (('a' ≤ c && c ≤ 'z') || ('A' ≤ c && c ≤ 'Z') || ('0' ≤ c && c ≤ '9') || c = '_')

/-- JavaScript regex whitespace class `\s` restricted to the ASCII whitespace
characters (space, tab, newline, carriage return, vertical tab, form feed). -/
def isSpaceChar (c : Char) : Bool :=
  (c = ' ' || c = '\t' || c = '\n' || c = '\r' || c = Char.ofNat 11 || c = Char.ofNat 12)

/-- JavaScript regex digit class `\d`. -/
def isDigitChar (c : Char) : Bool := ('0' ≤ c && c ≤ '9')

/-- Whether `needle` is a prefix of `hay` (character-for-character). -/
def beginsWith : List Char → List Char → Bool
  | [], _ => true
  | _ :: _, [] => false
  | a :: as, b :: bs => a = b && beginsWith as bs

/-- Whether `needle` occurs as a contiguous substring of `hay`; this models
JavaScript `String.prototype.includes`. -/
def containsSub (needle : List Char) : List Char → Bool
  | [] => needle.isEmpty
  | c :: rest => beginsWith needle (c :: rest) || containsSub needle rest

/-- Substring test taking the needle as a string literal. -/
def inclS (needle : String) (hay : List Char) : Bool := containsSub needle.toList hay

/-- JavaScript `String.prototype.trim`: strip whitespace from both ends. -/
def trimList (l : List Char) : List Char :=
  ((l.dropWhile isSpaceChar).reverse.dropWhile isSpaceChar).reverse

/-- JavaScript `String.prototype.toLowerCase` on ASCII text. -/
def lowerList (l : List Char) : List Char := l.map Char.toLower

/-- JavaScript `String.prototype.split` at newline: `code.split('\n')`.
The result is always non-empty; the empty string splits to one empty line. -/
def splitLines : List Char → List (List Char)
  | [] => [[]]
  | c :: rest =>
    if c = '\n' then [] :: splitLines rest
    else
      match splitLines rest with
      | l :: ls => (c :: l) :: ls
      | [] => [[c]]

/-- After optional whitespace, the next character is an opening parenthesis:
the `\s*\(` tail of the loop regexes. -/
def lparenAfterWS : List Char → Bool
  | [] => false
  | c :: rest => if c = '(' then true else if isSpaceChar c then lparenAfterWS rest else false

/-- The suffix starts with keyword `kw` followed by `\s*\(`. -/
def kwThenParen (kw : List Char) (l : List Char) : Bool :=
  beginsWith kw l && lparenAfterWS (l.drop kw.length)

/-- Search for `\b(for|while)\s*\(` from every position; the flag records
whether the current position sits at a word boundary. -/
def matchLoopCAux : List Char → Bool → Bool
  | [], _ => false
  | c :: rest, bnd =>
    (bnd && (kwThenParen "for".toList (c :: rest) || kwThenParen "while".toList (c :: rest)))
      || matchLoopCAux rest (!isWordChar c)

/-- Test of the C-family loop-header regex `/\b(for|while)\s*\(/` used for the
`cpp` and `java` language tags. -/
def matchLoopC (l : List Char) : Bool := matchLoopCAux l true

/-- A colon occurs in the suffix before any newline — the `.*:` tail of the
Python loop regex (`.` does not match a newline). -/
def colonBeforeNewline : List Char → Bool
  | [] => false
  | c :: rest => if c = ':' then true else if c = '\n' then false else colonBeforeNewline rest

/-- The suffix starts with keyword `kw`, a trailing word boundary, and then
matches `.*:`. -/
def kwPyOk (kw : List Char) (l : List Char) : Bool :=
  beginsWith kw l &&
    (match l.drop kw.length with
     | [] => false
     | c :: rest => !isWordChar c && colonBeforeNewline (c :: rest))

/-- Search for `\b(for|while)\b.*:` from every position. -/
def matchLoopPyAux : List Char → Bool → Bool
  | [], _ => false
  | c :: rest, bnd =>
    (bnd && (kwPyOk "for".toList (c :: rest) || kwPyOk "while".toList (c :: rest)))
      || matchLoopPyAux rest (!isWordChar c)

/-- Test of the Python loop-header regex `/\b(for|while)\b.*:/`. -/
def matchLoopPy (l : List Char) : Bool := matchLoopPyAux l true

/-- Scanning a reversed prefix: after skipping whitespace the nearest
character is a word character (the `\w+\s*` part read backwards). -/
def revSkipSpaceHeadWord (pre : List Char) : Bool :=
  match pre.dropWhile isSpaceChar with
  | [] => false
  | c :: _ => isWordChar c

/-- After skipping whitespace the next character is a digit
(the `\s*\d+` part). -/
def firstNonSpaceIsDigit (l : List Char) : Bool :=
  match l.dropWhile isSpaceChar with
  | [] => false
  | c :: _ => isDigitChar c

/-- The characters strictly before the first closing parenthesis, when one
exists (the region `[^)]*...[^)]*` of the recursion regex). -/
def splitAtRParen : List Char → Option (List Char)
  | [] => none
  | c :: rest =>
    if c = ')' then some []
    else
      match splitAtRParen rest with
      | some t => some (c :: t)
      | none => none

/-- Search inside a parenthesis-free region for `\w+\s*[-+]\s*\d+`:
a sign character with a word character to its left and a digit to its right,
each across optional whitespace.  `pre` holds the already-scanned characters
in reverse order. -/
def innerScan (pre : List Char) : List Char → Bool
  | [] => false
  | c :: rest =>
    ((c = '+' || c = '-') && revSkipSpaceHeadWord pre && firstNonSpaceIsDigit rest)
      || innerScan (c :: pre) rest

/-- Search for the recursion-call regex `/\w+\s*\([^)]*\w+\s*[-+]\s*\d+[^)]*\)/`:
an opening parenthesis preceded (across optional whitespace) by a word
character, whose first matching closing parenthesis encloses a
word-sign-digit shape.  `pre` holds the already-scanned characters in
reverse order. -/
def matchRecNumAux (pre : List Char) : List Char → Bool
  | [] => false
  | c :: rest =>
    (c = '(' && revSkipSpaceHeadWord pre &&
      (match splitAtRParen rest with
       | some t => innerScan [] t
       | none => false))
      || matchRecNumAux (c :: pre) rest

/-- Test of the numeric-argument recursion regex. -/
def matchRecNum (l : List Char) : Bool := matchRecNumAux [] l

/-- After at least one whitespace character, skipping further whitespace, the
next character is a word character (the `\s+\w+` tail of `in\s+\w+`). -/
def spaces1ThenWord : List Char → Bool
  | [] => false
  | c :: rest =>
    isSpaceChar c &&
      (match rest.dropWhile isSpaceChar with
       | [] => false
       | d :: _ => isWordChar d)

/-- Search for `/in\s+\w+/` from every position. -/
def matchInSpaceWord : List Char → Bool
  | [] => false
  | c :: rest =>
    (c = 'i' && beginsWith ['n'] rest && spaces1ThenWord (rest.drop 1))
      || matchInSpaceWord rest

/-- A closing bracket occurs before any newline (the `.*\]` tail of `\[.*\]`). -/
def rbracketBeforeNewline : List Char → Bool
  | [] => false
  | c :: rest => if c = ']' then true else if c = '\n' then false else rbracketBeforeNewline rest

/-- Test of the bracket-access regex `/\[.*\]/`. -/
def matchBrackets : List Char → Bool
  | [] => false
  | c :: rest => (c = '[' && rbracketBeforeNewline rest) || matchBrackets rest

/-- After optional whitespace the next character is an equals sign
(the `\s*=` tail). -/
def eqAfterWS : List Char → Bool
  | [] => false
  | c :: rest => if c = '=' then true else if isSpaceChar c then eqAfterWS rest else false

/-- Some closing bracket before any newline is followed by `\s*=`
(the `.*\]\s*=` tail of `\[.*\]\s*=`; `.` also matches `]`). -/
def closeThenEq : List Char → Bool
  | [] => false
  | c :: rest =>
    if c = '\n' then false
    else (c = ']' && eqAfterWS rest) || closeThenEq rest

/-- Test of the bracket-assignment regex `/\[.*\]\s*=/`. -/
def matchBracketAssign : List Char → Bool
  | [] => false
  | c :: rest => (c = '[' && closeThenEq rest) || matchBracketAssign rest

/-- Longest run of word characters from the front (a greedy `\w+`). -/
def grabWord (l : List Char) : List Char := l.takeWhile isWordChar

/-- First alternative of the name-extraction regex,
`(?:def|function)\s+(\w+)`, tried at the current position for keyword `kw`:
returns the captured word on success. -/
def tryKwName (kw : String) (l : List Char) : Option (List Char) :=
  if beginsWith kw.toList l then
    match l.drop kw.toList.length with
    | [] => none
    | c :: rest =>
      if isSpaceChar c then
        let w := grabWord ((c :: rest).dropWhile isSpaceChar)
        if w.isEmpty then none else some w
      else none
  else none

/-- Second alternative of the name-extraction regex, `(\w+)\s*\(`, tried at
the current position: the maximal word run must be followed by `\s*\(`. -/
def tryWordParen (l : List Char) : Option (List Char) :=
  match l with
  | [] => none
  | c :: _ =>
    if isWordChar c then
      let w := grabWord l
      if lparenAfterWS (l.drop w.length) then some w else none
    else none

/-- Leftmost match of `/(?:def|function)\s+(\w+)|(\w+)\s*\(/`, preferring the
first alternative at each position, returning the captured word. -/
def extractNameAux : List Char → Option (List Char)
  | [] => none
  | c :: rest =>
    match tryKwName "def" (c :: rest) with
    | some w => some w
    | none =>
      match tryKwName "function" (c :: rest) with
      | some w => some w
      | none =>
        match tryWordParen (c :: rest) with
        | some w => some w
        | none => extractNameAux rest

/-- The digits captured by the first match of `/n\^(\d+)/`, when any. -/
def findNCaret : List Char → Option (List Char)
  | [] => none
  | c :: rest =>
    if c = 'n' then
      match rest with
      | [] => none
      | d :: rest2 =>
        if d = '^' then
          (let ds := rest2.takeWhile isDigitChar
           if ds.isEmpty then findNCaret rest else some ds)
        else findNCaret rest
    else findNCaret rest

/-- Decimal value of a digit string, as computed by `parseInt`. -/
def digitsToNat (ds : List Char) : Nat :=
  ds.foldl (fun a c => a * 10 + (c.toNat - 48)) 0

/-- The exponent read by `pattern.complexity.match(/n\^(\d+)/)?.[1] || '2'`. -/
def extractExponent (s : List Char) : Nat :=
  match findNCaret s with
  | some ds => digitsToNat ds
  | none => 2

/-! ## Data model (src/types/analysis.ts) -/

/-- Three-level rating used for line severities, pattern impacts and
suggestion priorities (the string unions `'low' | 'medium' | 'high'`). -/
inductive Severity where
  | low
  | medium
  | high
deriving DecidableEq, Repr, Inhabited

/-- Pattern kinds of `ComplexityPattern.type`. -/
inductive PatternType where
  | loop
  | recursion
  | nested
  | algorithm
deriving DecidableEq, Repr, Inhabited

/-- Suggestion kinds of `Suggestion.type`. -/
inductive SuggestionType where
  | optimization
  | refactor
  | algorithm
deriving DecidableEq, Repr, Inhabited

/-- Interface `LineComplexity`. -/
structure LineComplexity where
  line : Nat
  code : List Char
  complexity : String
  reason : String
  severity : Severity
deriving DecidableEq, Repr, Inhabited

/-- Interface `ComplexityPattern`. -/
structure ComplexityPattern where
  type : PatternType
  startLine : Nat
  endLine : Nat
  complexity : String
  description : String
  impact : Severity
deriving DecidableEq, Repr, Inhabited

/-- Interface `Suggestion`; the optional `example` field is called
`exampleText` because `example` is a Lean keyword. -/
structure Suggestion where
  line : Nat
  type : SuggestionType
  title : String
  description : String
  exampleText : Option String
  priority : Severity
deriving DecidableEq, Repr, Inhabited

/-- Interface `EducationalContent`; the two string-keyed objects are
modelled as association lists in key-insertion order. -/
structure EducationalContent where
  concepts : List String
  explanations : List (String × String)
  examples : List (String × String)
deriving DecidableEq, Repr, Inhabited

/-- The `overall` component of `ComplexityAnalysis`. -/
structure OverallComplexity where
  time : String
  space : String
  score : Int
deriving DecidableEq, Repr, Inhabited

/-- Interface `ComplexityAnalysis`. -/
structure ComplexityAnalysis where
  overall : OverallComplexity
  lineByLine : List LineComplexity
  patterns : List ComplexityPattern
  suggestions : List Suggestion
  educational : EducationalContent
deriving DecidableEq, Repr, Inhabited

/-! ## Shared loop recognizer

Both classes carry the identical `loopPatterns` table keyed by the lowercased
language tag (`cpp`, `java`, `python`); `pattern ? pattern.test(line) : false`
yields `false` for a tag that is not a property of the object — with one
JavaScript caveat, recorded in `protoChainKeys` below. -/

/-- The `Object.prototype` property names that survive lowercasing.  The
source looks the lowercased tag up in an object literal, and a JavaScript
property read consults the prototype chain: for the keys `constructor` and
`__proto__` (the only `Object.prototype` member names without uppercase
letters, hence the only ones a lowercased tag can hit) the lookup yields a
truthy non-RegExp inherited value, and `pattern.test(line)` then throws a
TypeError — the source neither classifies the line nor returns `false`.  The
total embedding `isLoopLine` collapses this error path to `false`, so every
theorem quantifying over unrecognized tags excludes these two keys. -/
def protoChainKeys : List (List Char) := ["constructor".toList, "__proto__".toList]

/-- The body of `isLoop` shared verbatim by `ComplexityDetector.isLoop` and
`AIOptimizer.isLoop` (`lang` is the already-lowercased language field).  The
final `else false` is faithful for every tag outside the three table keys
and outside `protoChainKeys`; on the two `protoChainKeys` tags the source
throws a TypeError instead of returning a value (see `protoChainKeys`). -/
def isLoopLine (lang : List Char) (line : List Char) : Bool :=
  if lang = "cpp".toList then matchLoopC line
  else if lang = "java".toList then matchLoopC line
  else if lang = "python".toList then matchLoopPy line
  else false

/-! ## AIOptimizer (src/utils/aiOptimizer.ts) -/

/-- Class `AIOptimizer` with its three private fields. -/
structure AIOptimizer where
  code : List Char
  language : List Char
  analysis : ComplexityAnalysis

/-- The `AIOptimizer` constructor: stores the code, the lowercased language
tag, and the received analysis. -/
def AIOptimizer.init (code language : List Char) (analysis : ComplexityAnalysis) : AIOptimizer :=
  ⟨code, lowerList language, analysis⟩

/-- Method `AIOptimizer.isLoop`. -/
def AIOptimizer.isLoop (o : AIOptimizer) (line : List Char) : Bool :=
  isLoopLine o.language line

/-- Helper `hasNestedLoop(lines, startIndex)`: forward scan over a 20-line
window tracking a brace counter, looking for an inner loop header while the
counter is positive.  The loop variable advances by one each step, so `fuel`
many steps starting at `i` cover the whole window whenever
`min (start+20) lines.length ≤ i + fuel`; the wrapper passes `fuel = 20`,
which always suffices since the window is at most 20 lines long, and fuel
exhaustion coincides with the window being exhausted (result `false`). -/
def hasNestedLoopAux (lang : List Char) (lines : List (List Char)) (start : Nat) :
    Nat → Nat → Int → Bool
  | 0, _, _ => false
  | fuel + 1, i, brace =>
    if i < min (start + 20) lines.length then
      let line := trimList (lines.getD i [])
      let brace1 := if line.contains lbrace then brace + 1 else brace
      let brace2 := if line.contains rbrace then brace1 - 1 else brace1
      if brace2 > 0 ∧ isLoopLine lang line = true ∧ start < i then true
      else if brace2 = 0 ∧ start < i then false
      else hasNestedLoopAux lang lines start fuel (i + 1) brace2
    else false

/-- Helper `hasNestedLoop`. -/
def hasNestedLoop (lang : List Char) (lines : List (List Char)) (start : Nat) : Bool :=
  hasNestedLoopAux lang lines start 20 start 0

/-- JavaScript `Array.prototype.slice(lo, hi)` on a list of lines. -/
def sliceList (lines : List (List Char)) (lo hi : Nat) : List (List Char) :=
  (lines.drop lo).take (hi - lo)

/-- JavaScript `Array.prototype.join(' ')`. -/
def joinSpace (ls : List (List Char)) : List Char := List.intercalate [' '] ls

/-- Helper `getLoopContext(lines, startIndex)`: flags
`(isSearching, isMatrixOperation)` gathered over a 10-line window of
lowercased (untrimmed) lines. -/
def getLoopContext (lines : List (List Char)) (start : Nat) : Bool × Bool :=
  let idxs := List.range' start (min (start + 10) lines.length - start)
  (idxs.any fun i =>
     let l := lowerList (lines.getD i [])
     inclS "==" l || inclS "find" l || inclS "search" l,
   idxs.any fun i =>
     let l := lowerList (lines.getD i [])
     inclS "[i][j]" l || inclS "matrix" l || inclS "grid" l)

/-- Helper `isRecursiveFunction(line)`. -/
def isRecursiveFunction (line : List Char) : Bool :=
  inclS "def " line || inclS "function " line ||
    (line.contains '(' && line.contains ')' && line.contains lbrace)

/-- Helper `extractFunctionName(line)`: leftmost match of
`/(?:def|function)\s+(\w+)|(\w+)\s*\(/` with fallback `'function'`. -/
def extractFunctionName (line : List Char) : String :=
  match extractNameAux line with
  | some w => String.mk w
  | none => "function"

/-- Helper `isFibonacciPattern(lines, startIndex)`. -/
def isFibonacciPattern (lines : List (List Char)) (start : Nat) : Bool :=
  let functionBody := joinSpace (sliceList lines start (min (start + 10) lines.length))
  inclS "fibonacci" functionBody ||
    (inclS "n-1" functionBody && inclS "n-2" functionBody)

/-- Helper `canOptimizeToTailRecursion(lines, startIndex)`. -/
def canOptimizeToTailRecursion (lines : List (List Char)) (start : Nat) : Bool :=
  (sliceList lines start (min (start + 15) lines.length)).any fun line =>
    inclS "return" line && line.contains '(' && !line.contains '+' && !line.contains '*'

/-- Helper `hasArrayInsertionAtBeginning(line)`. -/
def hasArrayInsertionAtBeginning (line : List Char) : Bool :=
  inclS ".insert(0" line || inclS ".unshift(" line || inclS "insert(arr.begin()" line

/-- Helper `hasFrequentArrayLookups(lines, index)`. -/
def hasFrequentArrayLookups (lines : List (List Char)) (index : Nat) : Bool :=
  let context := sliceList lines (index - 3) (min lines.length (index + 3))
  2 ≤ context.countP fun line =>
    inclS ".find(" line || inclS ".indexOf(" line || inclS "in " line

/-- Helper `hasSetOperationsOnArray(line)`. -/
def hasSetOperationsOnArray (line : List Char) : Bool :=
  (inclS "unique" line || inclS "distinct" line) &&
    (inclS "array" line || inclS "list" line || inclS "vector" line)

/-- Helper `isLinearSearchInSortedArray(lines, index)`. -/
def isLinearSearchInSortedArray (lang : List Char) (lines : List (List Char)) (index : Nat) : Bool :=
  let context := sliceList lines (index - 5) (min lines.length (index + 5))
  let hasSortedComment := context.any fun line =>
    inclS "sorted" (lowerList line) || inclS "ascending" (lowerList line)
  let hasLinearSearch := inclS "==" (lines.getD index []) && isLoopLine lang (lines.getD index [])
  hasSortedComment && hasLinearSearch

/-- Helper `hasSubstringSearch(line)`. -/
def hasSubstringSearch (line : List Char) : Bool :=
  inclS ".find(" line || inclS ".indexOf(" line || inclS "substring" line || inclS "strstr" line

/-- Helper `isBubbleSort(lines, index)`. -/
def isBubbleSort (lang : List Char) (lines : List (List Char)) (index : Nat) : Bool :=
  let context := joinSpace (sliceList lines index (min (index + 8) lines.length))
  inclS "bubble" context ||
    (inclS "swap" context && inclS "j+1" context && hasNestedLoop lang lines index)

/-- Helper `isSelectionSort(lines, index)`. -/
def isSelectionSort (lang : List Char) (lines : List (List Char)) (index : Nat) : Bool :=
  let context := joinSpace (sliceList lines index (min (index + 10) lines.length))
  inclS "selection" context ||
    (inclS "min" context && inclS "swap" context && hasNestedLoop lang lines index)

/-- Helper `hasStringConcatenationInLoop(lines, index)`. -/
def hasStringConcatenationInLoop (lang : List Char) (lines : List (List Char)) (index : Nat) : Bool :=
  isLoopLine lang (lines.getD index []) &&
    (sliceList lines index (min (index + 5) lines.length)).any fun line =>
      inclS "+=" line && (line.contains dquote || line.contains squote)

/-- Helper `hasCharacterByCharacterBuilding(line)`. -/
def hasCharacterByCharacterBuilding (line : List Char) : Bool :=
  inclS "charAt" line || (inclS "[i]" line && inclS "string" line)

/-- Helper `hasUnnecessaryArrayCopy(line)`. -/
def hasUnnecessaryArrayCopy (line : List Char) : Bool :=
  inclS ".copy()" line || inclS ".clone()" line || inclS "Arrays.copyOf" line || inclS "memcpy" line

/-- Helper `hasSpaceInefficiency(lines, index)`. -/
def hasSpaceInefficiency (lines : List (List Char)) (index : Nat) : Bool :=
  (sliceList lines index (min (index + 5) lines.length)).any fun line =>
    inclS "new " line && (inclS "[n]" line || inclS "vector<" line)

/-! ### Canned example templates (braces written as \x7b and \x7d) -/

/-- Template `getHashMapExample`. -/
def getHashMapExample : String :=
  "// Instead of nested loops:\nfor (int i = 0; i < n; i++) \x7b\n    for (int j = 0; j < m; j++) \x7b\n        if (arr1[i] == arr2[j]) \x7b /* found */ \x7d\n    \x7d\n\x7d\n\n// Use hash map:\nunordered_set<int> hashSet(arr2, arr2 + m);\nfor (int i = 0; i < n; i++) \x7b\n    if (hashSet.find(arr1[i]) != hashSet.end()) \x7b\n        /* found in O(1) */\n    \x7d\n\x7d"

/-- Template `getMemoizationExample(functionName)`. -/
def getMemoizationExample (functionName : String) : String :=
  "// Add memoization:\nunordered_map<int, int> memo;\n\nint " ++ functionName ++
    "(int n) \x7b\n    if (memo.find(n) != memo.end()) \x7b\n        return memo[n];\n    \x7d\n    if (n <= 1) return n;\n    memo[n] = " ++
    functionName ++ "(n-1) + " ++ functionName ++ "(n-2);\n    return memo[n];\n\x7d"

/-- Template `getBinarySearchExample`. -/
def getBinarySearchExample : String :=
  "// Replace linear search:\nfor (int i = 0; i < n; i++) \x7b\n    if (arr[i] == target) return i;\n\x7d\n\n// With binary search:\nint left = 0, right = n - 1;\nwhile (left <= right) \x7b\n    int mid = left + (right - left) / 2;\n    if (arr[mid] == target) return mid;\n    if (arr[mid] < target) left = mid + 1;\n    else right = mid - 1;\n\x7d"

/-- Template `getStringBuilderExample`. -/
def getStringBuilderExample : String :=
  "// Instead of string concatenation:\nstring result = \"\";\nfor (int i = 0; i < n; i++) \x7b\n    result += arr[i]; // O(n²) complexity\n\x7d\n\n// Use StringBuilder or vector:\nvector<string> parts;\nfor (int i = 0; i < n; i++) \x7b\n    parts.push_back(arr[i]);\n\x7d\nstring result = join(parts); // O(n) complexity"

/-- Template `getMatrixOptimizationExample`. -/
def getMatrixOptimizationExample : String :=
  "// Cache-friendly matrix traversal:\n// Instead of column-major order:\nfor (int j = 0; j < cols; j++) \x7b\n    for (int i = 0; i < rows; i++) \x7b\n        process(matrix[i][j]);\n    \x7d\n\x7d\n\n// Use row-major order:\nfor (int i = 0; i < rows; i++) \x7b\n    for (int j = 0; j < cols; j++) \x7b\n        process(matrix[i][j]);\n    \x7d\n\x7d"

/-- Template `getDequeExample`. -/
def getDequeExample : String :=
  "// Instead of array front insertion:\nvector<int> arr;\narr.insert(arr.begin(), value); // O(n)\n\n// Use deque:\ndeque<int> dq;\ndq.push_front(value); // O(1)"

/-- Template `getHashMapLookupExample`. -/
def getHashMapLookupExample : String :=
  "// Replace array lookup:\nbool found = false;\nfor (int x : arr) \x7b\n    if (x == target) \x7b found = true; break; \x7d\n\x7d\n\n// With hash map:\nunordered_set<int> hashSet(arr.begin(), arr.end());\nbool found = hashSet.count(target) > 0;"

/-- Template `getSetOperationExample`. -/
def getSetOperationExample : String :=
  "// Instead of array for unique elements:\nvector<int> unique_arr;\nfor (int x : arr) \x7b\n    if (find(unique_arr.begin(), unique_arr.end(), x) == unique_arr.end()) \x7b\n        unique_arr.push_back(x);\n    \x7d\n\x7d\n\n// Use set:\nset<int> unique_set(arr.begin(), arr.end());"

/-- Template `getKMPExample`. -/
def getKMPExample : String :=
  "// For repeated string matching, use KMP:\nvector<int> computeLPS(string pattern) \x7b\n    int m = pattern.length();\n    vector<int> lps(m, 0);\n    int len = 0, i = 1;\n    \n    while (i < m) \x7b\n        if (pattern[i] == pattern[len]) \x7b\n            lps[i++] = ++len;\n        \x7d else if (len) \x7b\n            len = lps[len - 1];\n        \x7d else \x7b\n            lps[i++] = 0;\n        \x7d\n    \x7d\n    return lps;\n\x7d"

/-- Template `getEfficientSortExample`. -/
def getEfficientSortExample : String :=
  "// Instead of bubble sort O(n²):\nfor (int i = 0; i < n-1; i++) \x7b\n    for (int j = 0; j < n-i-1; j++) \x7b\n        if (arr[j] > arr[j+1]) \x7b\n            swap(arr[j], arr[j+1]);\n        \x7d\n    \x7d\n\x7d\n\n// Use built-in sort O(n log n):\nsort(arr.begin(), arr.end());"

/-- Template `getMergeSortExample`. -/
def getMergeSortExample : String :=
  "// Implement merge sort O(n log n):\nvoid mergeSort(vector<int>& arr, int left, int right) \x7b\n    if (left < right) \x7b\n        int mid = left + (right - left) / 2;\n        mergeSort(arr, left, mid);\n        mergeSort(arr, mid + 1, right);\n        merge(arr, left, mid, right);\n    \x7d\n\x7d"

/-- Template `getTailRecursionExample(functionName)`. -/
def getTailRecursionExample (functionName : String) : String :=
  "// Convert to tail recursion:\nint " ++ functionName ++ "Helper(int n, int acc) \x7b\n    if (n <= 1) return acc;\n    return " ++
    functionName ++ "Helper(n - 1, acc * n);\n\x7d\n\nint " ++ functionName ++ "(int n) \x7b\n    return " ++
    functionName ++ "Helper(n, 1);\n\x7d"

/-- Template `getCharArrayExample`. -/
def getCharArrayExample : String :=
  "// Instead of string concatenation:\nstring result = \"\";\nfor (char c : chars) \x7b\n    result += c; // O(n²)\n\x7d\n\n// Use character array:\nvector<char> result;\nfor (char c : chars) \x7b\n    result.push_back(c); // O(n)\n\x7d\nstring final_result(result.begin(), result.end());"

/-- Template `getInPlaceOperationExample`. -/
def getInPlaceOperationExample : String :=
  "// Instead of creating new array:\nvector<int> doubled;\nfor (int x : arr) \x7b\n    doubled.push_back(x * 2);\n\x7d\n\n// Modify in-place:\nfor (int& x : arr) \x7b\n    x *= 2;\n\x7d"

/-- Template `getSpaceOptimizationExample`. -/
def getSpaceOptimizationExample : String :=
  "// Space-optimized approach:\n// Instead of O(n) extra space:\nvector<int> temp(n);\n\n// Use O(1) space with two pointers:\nint left = 0, right = n - 1;\nwhile (left < right) \x7b\n    // Process without extra space\n    left++;\n    right--;\n\x7d"

/-! ### The seven recognizer families -/

/-- Method `AIOptimizer.analyzeNestedLoops`. -/
def AIOptimizer.analyzeNestedLoops (o : AIOptimizer) (lines : List (List Char)) : List Suggestion :=
  (List.range lines.length).flatMap fun i =>
    let line := trimList (lines.getD i [])
    if o.isLoop line && hasNestedLoop o.language lines i then
      let context := getLoopContext lines i
      (if context.1 then
        [⟨i + 1, .optimization, "Replace nested loop search with hash map",
          "Convert O(n²) nested loop search to O(n) using a hash map for constant-time lookups.",
          some getHashMapExample, .high⟩]
       else []) ++
      (if context.2 then
        [⟨i + 1, .algorithm, "Optimize matrix operations",
          "Consider cache-friendly iteration patterns or specialized matrix algorithms.",
          some getMatrixOptimizationExample, .medium⟩]
       else [])
    else []

/-- Method `AIOptimizer.analyzeRecursionPatterns`. -/
def AIOptimizer.analyzeRecursionPatterns (_o : AIOptimizer) (lines : List (List Char)) : List Suggestion :=
  (List.range lines.length).flatMap fun i =>
    let line := trimList (lines.getD i [])
    if isRecursiveFunction line then
      let functionName := extractFunctionName line
      (if isFibonacciPattern lines i then
        [⟨i + 1, .algorithm, "Implement memoization for recursive function",
          "Add memoization to avoid redundant calculations and reduce time complexity from O(2^n) to O(n).",
          some (getMemoizationExample functionName), .high⟩]
       else []) ++
      (if canOptimizeToTailRecursion lines i then
        [⟨i + 1, .optimization, "Convert to tail recursion or iterative approach",
          "Optimize stack usage by converting to tail recursion or an iterative solution.",
          some (getTailRecursionExample functionName), .medium⟩]
       else [])
    else []

/-- Method `AIOptimizer.analyzeDataStructureUsage`. -/
def AIOptimizer.analyzeDataStructureUsage (_o : AIOptimizer) (lines : List (List Char)) : List Suggestion :=
  (List.range lines.length).flatMap fun i =>
    let line := trimList (lines.getD i [])
    (if hasArrayInsertionAtBeginning line then
      [⟨i + 1, .optimization, "Use deque for efficient front insertions",
        "Array insertions at the beginning are O(n). Consider using a deque or linked list for O(1) front insertions.",
        some getDequeExample, .medium⟩]
     else []) ++
    (if hasFrequentArrayLookups lines i then
      [⟨i + 1, .optimization, "Replace array with hash map for faster lookups",
        "Convert O(n) array searches to O(1) hash map lookups for better performance.",
        some getHashMapLookupExample, .high⟩]
     else []) ++
    (if hasSetOperationsOnArray line then
      [⟨i + 1, .optimization, "Use Set data structure for unique elements",
        "Set operations on arrays are inefficient. Use a Set data structure for O(1) add/remove/contains operations.",
        some getSetOperationExample, .medium⟩]
     else [])

/-- Method `AIOptimizer.analyzeSearchPatterns`. -/
def AIOptimizer.analyzeSearchPatterns (o : AIOptimizer) (lines : List (List Char)) : List Suggestion :=
  (List.range lines.length).flatMap fun i =>
    let line := trimList (lines.getD i [])
    (if isLinearSearchInSortedArray o.language lines i then
      [⟨i + 1, .algorithm, "Use binary search for sorted arrays",
        "Replace O(n) linear search with O(log n) binary search for sorted data.",
        some getBinarySearchExample, .high⟩]
     else []) ++
    (if hasSubstringSearch line then
      [⟨i + 1, .algorithm, "Consider KMP algorithm for string matching",
        "For repeated string searches, KMP algorithm provides O(n+m) complexity instead of O(n*m).",
        some getKMPExample, .medium⟩]
     else [])

/-- Method `AIOptimizer.analyzeSortingPatterns`. -/
def AIOptimizer.analyzeSortingPatterns (o : AIOptimizer) (lines : List (List Char)) : List Suggestion :=
  (List.range lines.length).flatMap fun i =>
    (if isBubbleSort o.language lines i then
      [⟨i + 1, .algorithm, "Replace bubble sort with efficient sorting algorithm",
        "Bubble sort has O(n²) complexity. Use quicksort, mergesort, or built-in sort functions for O(n log n) performance.",
        some getEfficientSortExample, .high⟩]
     else []) ++
    (if isSelectionSort o.language lines i then
      [⟨i + 1, .algorithm, "Upgrade from selection sort to merge sort",
        "Selection sort is O(n²). Consider merge sort or heap sort for guaranteed O(n log n) performance.",
        some getMergeSortExample, .high⟩]
     else [])

/-- Method `AIOptimizer.analyzeStringOperations`. -/
def AIOptimizer.analyzeStringOperations (o : AIOptimizer) (lines : List (List Char)) : List Suggestion :=
  (List.range lines.length).flatMap fun i =>
    let line := trimList (lines.getD i [])
    (if hasStringConcatenationInLoop o.language lines i then
      [⟨i + 1, .optimization, "Use StringBuilder for string concatenation in loops",
        "String concatenation in loops creates O(n²) complexity. Use StringBuilder or string arrays for O(n) performance.",
        some getStringBuilderExample, .high⟩]
     else []) ++
    (if hasCharacterByCharacterBuilding line then
      [⟨i + 1, .optimization, "Optimize character-by-character string operations",
        "Consider using character arrays or StringBuilder for efficient string manipulation.",
        some getCharArrayExample, .medium⟩]
     else [])

/-- Method `AIOptimizer.analyzeMemoryOptimizations`. -/
def AIOptimizer.analyzeMemoryOptimizations (_o : AIOptimizer) (lines : List (List Char)) : List Suggestion :=
  (List.range lines.length).flatMap fun i =>
    let line := trimList (lines.getD i [])
    (if hasUnnecessaryArrayCopy line then
      [⟨i + 1, .optimization, "Avoid unnecessary array copying",
        "Array copying is O(n) operation. Consider using array slicing or in-place operations when possible.",
        some getInPlaceOperationExample, .medium⟩]
     else []) ++
    (if hasSpaceInefficiency lines i then
      [⟨i + 1, .optimization, "Optimize space complexity",
        "Consider space-time trade-offs. Sometimes using O(1) extra space instead of O(n) can be beneficial.",
        some getSpaceOptimizationExample, .low⟩]
     else [])

/-- Method `AIOptimizer.generateAISuggestions`: concatenation of the seven
recognizer families over `this.code.split('\n')` (the final
`filter(s => s !== null)` is the identity since no family produces null). -/
def AIOptimizer.generateAISuggestions (o : AIOptimizer) : List Suggestion :=
  let lines := splitLines o.code
  o.analyzeNestedLoops lines ++ o.analyzeRecursionPatterns lines ++
    o.analyzeDataStructureUsage lines ++ o.analyzeSearchPatterns lines ++
    o.analyzeSortingPatterns lines ++ o.analyzeStringOperations lines ++
    o.analyzeMemoryOptimizations lines

/-! ## ComplexityDetector (src/utils/complexityDetector.ts) -/

/-- Class `ComplexityDetector` with its three private fields. -/
structure ComplexityDetector where
  code : List Char
  language : List Char
  lines : List (List Char)

/-- The `ComplexityDetector` constructor: stores the code, the lowercased
language tag, and `code.split('\n')`. -/
def ComplexityDetector.init (code language : List Char) : ComplexityDetector :=
  ⟨code, lowerList language, splitLines code⟩

/-- Method `ComplexityDetector.isLoop`. -/
def ComplexityDetector.isLoop (d : ComplexityDetector) (line : List Char) : Bool :=
  isLoopLine d.language line

/-- Method `ComplexityDetector.isRecursiveCall`. -/
def isRecursiveCall (line : List Char) : Bool :=
  inclS "function_name(" line || inclS "def " line || matchRecNum line

/-- Method `ComplexityDetector.isCollectionOperation`. -/
def isCollectionOperation (line : List Char) : Bool :=
  inclS ".find(" line || inclS ".filter(" line || inclS ".map(" line ||
    inclS ".forEach(" line || matchInSpaceWord line || inclS ".contains(" line ||
    inclS ".indexOf(" line

/-- Method `ComplexityDetector.isHashOperation`. -/
def isHashOperation (line : List Char) : Bool :=
  matchBracketAssign line || inclS ".get(" line || inclS ".put(" line || matchBrackets line

/-- Method `ComplexityDetector.getNestedLoopDepth`: the source is a stub that
always returns 0 (a placeholder implementation). -/
def getNestedLoopDepth (_line : List Char) : Nat := 0

/-- Method `ComplexityDetector.getLineComplexity`: the returned triple is
(notation string, reason, severity). -/
def ComplexityDetector.getLineComplexity (d : ComplexityDetector) (line : List Char) :
    String × String × Severity :=
  let nestedLoopDepth := getNestedLoopDepth line
  if nestedLoopDepth > 1 then
    ("O(n^" ++ Nat.repr nestedLoopDepth ++ ")",
     "Nested loop with depth " ++ Nat.repr nestedLoopDepth, .high)
  else if d.isLoop line then ("O(n)", "Linear loop iteration", .medium)
  else if isRecursiveCall line then ("O(2^n)", "Potential exponential recursion", .high)
  else if isCollectionOperation line then ("O(n)", "Collection iteration or search", .medium)
  else if isHashOperation line then ("O(1)", "Hash table lookup/insertion", .low)
  else ("O(1)", "Constant time operation", .low)

/-- Method `ComplexityDetector.analyzeLines`. -/
def ComplexityDetector.analyzeLines (d : ComplexityDetector) : List LineComplexity :=
  d.lines.enum.map fun p =>
    let c := d.getLineComplexity (trimList p.2)
    ⟨p.1 + 1, p.2, c.1, c.2.1, c.2.2⟩

/-- One iteration body of the `analyzeNestedStructure` while-loop on a single
line: updates (in source order) the loop-nesting depth, the maximal nesting
seen, and the brace counter, returning the updated
`(depth, maxDepth, braceCount)`. -/
def nestedStep (isLp : List Char → Bool) (l : List Char) (depth maxD : Nat) (brace : Int) :
    Nat × Nat × Int :=
  let t := trimList l
  let depth1 := if isLp t then depth + 1 else depth
  let maxD1 := if isLp t then max maxD depth1 else maxD
  let brace1 := if t.contains lbrace then brace + 1 else brace
  let brace2 := if t.contains rbrace then brace1 - 1 else brace1
  let depth2 := if t.contains rbrace then (if depth1 > 0 then depth1 - 1 else depth1) else depth1
  (depth2, maxD1, brace2)

/-- The while-loop of `analyzeNestedStructure`, walking the remaining lines
with the current 0-based line index `cur`, loop-nesting `depth`, the maximal
nesting `maxD` seen, and the brace counter.  The loop breaks when the brace
counter returns to zero past the start line; otherwise it advances one line.
Returns the final index together with the maximal depth. -/
def nestedScanAux (isLp : List Char → Bool) (startLine : Nat) :
    List (List Char) → Nat → Nat → Nat → Int → Nat × Nat
  | [], cur, _, maxD, _ => (cur, maxD)
  | l :: rest, cur, depth, maxD, brace =>
    let st := nestedStep isLp l depth maxD brace
    if st.2.2 = 0 ∧ startLine < cur then (cur, st.2.1)
    else nestedScanAux isLp startLine rest (cur + 1) st.1 st.2.1 st.2.2

/-- Method `ComplexityDetector.analyzeNestedStructure(startLine)` (0-based
start index): emits a `nested` pattern exactly when the maximal loop-nesting
depth observed by the scan exceeds 1. -/
def ComplexityDetector.analyzeNestedStructure (d : ComplexityDetector) (startLine : Nat) :
    Option ComplexityPattern :=
  let r := nestedScanAux d.isLoop startLine (d.lines.drop startLine) startLine 0 1 0
  if r.2 > 1 then
    some ⟨.nested, startLine + 1, r.1 + 1, "O(n^" ++ Nat.repr r.2 ++ ")",
      "Nested loops with depth " ++ Nat.repr r.2,
      if r.2 > 2 then .high else .medium⟩
  else none

/-- The while-loop of `detectPatterns`, at 0-based index `i`.  The index
strictly increases on every step (a found nested pattern jumps to its
`endLine`, which exceeds `i`), so `fuel` many steps cover the whole scan
whenever `lines.length ≤ i + fuel`; the wrapper passes `lines.length + 1`
and the fuel-exhaustion branch is unreachable
(`detectPatternsFuel_irrelevant` below). -/
def ComplexityDetector.detectPatternsFuel (d : ComplexityDetector) :
    Nat → Nat → List ComplexityPattern
  | 0, _ => []
  | fuel + 1, i =>
    if i < d.lines.length then
      let line := trimList (d.lines.getD i [])
      match (if d.isLoop line then d.analyzeNestedStructure i else none) with
      | some p => p :: d.detectPatternsFuel fuel p.endLine
      | none =>
        if isRecursiveCall line then
          ⟨.recursion, i + 1, i + 1, "O(2^n)", "Recursive function call detected", .high⟩
            :: d.detectPatternsFuel fuel (i + 1)
        else d.detectPatternsFuel fuel (i + 1)
    else []

/-- Method `ComplexityDetector.detectPatterns`. -/
def ComplexityDetector.detectPatterns (d : ComplexityDetector) : List ComplexityPattern :=
  d.detectPatternsFuel (d.lines.length + 1) 0

/-- Method `ComplexityDetector.generateSuggestions`: the first phase folds
over the patterns (nested high-impact, then recursion, two independent
checks); the second phase folds over the line records, adding the generic
refactor suggestion when no suggestion at that line number exists yet. -/
def ComplexityDetector.generateSuggestions (_d : ComplexityDetector)
    (lineAnalysis : List LineComplexity) (patterns : List ComplexityPattern) : List Suggestion :=
  let phase1 := patterns.foldl (fun acc p =>
    let acc1 :=
      if p.type = .nested ∧ p.impact = .high then
        acc ++ [⟨p.startLine, .optimization, "Reduce nested loop complexity",
          "Consider using hash maps, early termination, or breaking the problem into smaller functions.",
          some "Use a hash map for O(1) lookups instead of nested loops for searching.", .high⟩]
      else acc
    if p.type = .recursion then
      acc1 ++ [⟨p.startLine, .algorithm, "Optimize recursion",
        "Consider using memoization, dynamic programming, or iterative approaches.",
        some "Add a cache to store previously computed results.", .high⟩]
    else acc1) []
  lineAnalysis.foldl (fun acc lc =>
    if lc.severity = .high ∧ ¬ acc.any (fun s => s.line = lc.line) then
      acc ++ [⟨lc.line, .refactor, "Simplify complex operation",
        "This line contributes significantly to overall complexity.", none, .medium⟩]
    else acc) phase1

/-- The explanation text stored under a concept key by
`generateEducationalContent`. -/
def explanationFor (c : String) : String :=
  if c = "Nested Loops" then
    "Nested loops multiply time complexity. Two nested loops over n elements result in O(n²) complexity."
  else if c = "Recursion" then
    "Recursive functions call themselves. Without optimization, they can have exponential complexity."
  else
    "Big O describes how algorithm performance scales with input size. O(1) is constant, O(n) is linear, O(n²) is quadratic."

/-- The example text stored under a concept key by
`generateEducationalContent`. -/
def exampleFor (c : String) : String :=
  if c = "Nested Loops" then
    "for (int i = 0; i < n; i++) \x7b\n  for (int j = 0; j < n; j++) \x7b\n    // O(n²) operation\n  \x7d\n\x7d"
  else if c = "Recursion" then
    "int fibonacci(int n) \x7b\n  if (n <= 1) return n;\n  return fibonacci(n-1) + fibonacci(n-2); // O(2^n)\n\x7d"
  else
    "O(1): array[index]\nO(n): linear search\nO(n²): nested loops\nO(log n): binary search"

/-- Insertion of a concept into the insertion-ordered concept set. -/
def addConcept (cs : List String) (c : String) : List String :=
  if cs.contains c then cs else cs ++ [c]

/-- Method `ComplexityDetector.generateEducationalContent`: concepts in
first-detection order with the baseline concept appended last; both maps hold
exactly the triples of the present concepts, in the same key order. -/
def ComplexityDetector.generateEducationalContent (_d : ComplexityDetector)
    (patterns : List ComplexityPattern) : EducationalContent :=
  let cs := patterns.foldl (fun acc p =>
    match p.type with
    | .nested => addConcept acc "Nested Loops"
    | .recursion => addConcept acc "Recursion"
    | _ => acc) []
  let cs := addConcept cs "Big O Notation"
  ⟨cs, cs.map fun c => (c, explanationFor c), cs.map fun c => (c, exampleFor c)⟩

/-- One step of the `calculateOverallComplexity` fold, updating the pair
(current time label, current score). -/
def overallStep (acc : String × Int) (p : ComplexityPattern) : String × Int :=
  if inclS "n^" p.complexity.toList then
    let exponent := extractExponent p.complexity.toList
    ("O(n^" ++ Nat.repr exponent ++ ")", acc.2 - 20 * exponent)
  else if p.complexity = "O(2^n)" then ("O(2^n)", acc.2 - 40)
  else if p.complexity = "O(n log n)" then ("O(n log n)", acc.2 - 15)
  else if p.complexity = "O(n)" ∧ acc.1 = "O(1)" then ("O(n)", acc.2 - 10)
  else acc

/-- Method `ComplexityDetector.calculateOverallComplexity`: fold in detection
order from `('O(1)', 100)`, report space `'O(1)'`, clamp the score from below
by `Math.max(0, score)`. -/
def calculateOverallComplexity (patterns : List ComplexityPattern) : OverallComplexity :=
  let r := patterns.foldl overallStep ("O(1)", 100)
  ⟨r.1, "O(1)", max 0 r.2⟩

/-- The deduplication key `` `${suggestion.line}-${suggestion.title}` ``. -/
def suggKey (s : Suggestion) : String :=
  Nat.repr s.line ++ "-" ++ s.title

/-- The `filter` phase of `deduplicateSuggestions`: keep a suggestion exactly
when its key has not been seen before. -/
def dedupAux (seen : List String) : List Suggestion → List Suggestion
  | [] => []
  | s :: rest =>
    if suggKey s ∈ seen then dedupAux seen rest
    else s :: dedupAux (suggKey s :: seen) rest

/-- Numeric priority rank used by the sort comparator
(`high = 3, medium = 2, low = 1`). -/
def priorityRank : Severity → Nat
  | .high => 3
  | .medium => 2
  | .low => 1

/-- Stable insertion placing `a` before the first element of strictly smaller
rank; together with `sortByPriority` this implements the stable descending
sort of `Array.prototype.sort(comparator)` (stable per the ECMAScript
specification) for the comparator `priorityOrder[b] - priorityOrder[a]`. -/
def insertDesc (a : Suggestion) : List Suggestion → List Suggestion
  | [] => [a]
  | b :: l =>
    if priorityRank a.priority < priorityRank b.priority then b :: insertDesc a l
    else a :: b :: l

/-- Stable sort by descending priority rank. -/
def sortByPriority : List Suggestion → List Suggestion
  | [] => []
  | a :: l => insertDesc a (sortByPriority l)

/-- Method `ComplexityDetector.deduplicateSuggestions`: filter out repeated
`(line, title)` keys keeping first occurrences, then stable-sort by
descending priority. -/
def deduplicateSuggestions (suggestions : List Suggestion) : List Suggestion :=
  sortByPriority (dedupAux [] suggestions)

/-- The concatenated suggestion list built inside `analyze`: the Detector's
basic suggestions followed by the Optimizer's AI suggestions (the Optimizer
receives the preliminary analysis exactly as in the source). -/
def ComplexityDetector.allSuggestions (d : ComplexityDetector) : List Suggestion :=
  let lineByLine := d.analyzeLines
  let patterns := d.detectPatterns
  let basicSuggestions := d.generateSuggestions lineByLine patterns
  let educational := d.generateEducationalContent patterns
  let overall := calculateOverallComplexity patterns
  let preliminaryAnalysis : ComplexityAnalysis :=
    ⟨overall, lineByLine, patterns, basicSuggestions, educational⟩
  basicSuggestions ++
    (AIOptimizer.init d.code d.language preliminaryAnalysis).generateAISuggestions

/-- Method `ComplexityDetector.analyze`. -/
def ComplexityDetector.analyze (d : ComplexityDetector) : ComplexityAnalysis :=
  ⟨calculateOverallComplexity d.detectPatterns, d.analyzeLines, d.detectPatterns,
    deduplicateSuggestions d.allSuggestions,
    d.generateEducationalContent d.detectPatterns⟩

/-- The engine entry point
`analyze(code, language) = new ComplexityDetector(code, language).analyze()`
(src/App.tsx). -/
def analyze (code language : List Char) : ComplexityAnalysis :=
  (ComplexityDetector.init code language).analyze

/-! ## Concrete inputs used by the verification -/

/-- The three-line C-family loop input of Scenario A:
`for(i=0;i<n;i++){` / `sum+=arr[i];` / `}`. -/
def loopInput : List Char := "for(i=0;i<n;i++)\x7b\nsum+=arr[i];\n\x7d".toList

/-- A two-line doubly-nested loop input whose braces are never closed. -/
def unbalancedInput : List Char := "for(i=0;i<n;i++)\x7b\nfor(j=0;j<n;j++)\x7b".toList

/-- The Python fibonacci input: a function named `fibonacci` whose body calls
itself with `n-1` and `n-2`. -/
def fibInput : List Char :=
  "def fibonacci(n):\n    if n <= 1:\n        return n\n    return fibonacci(n-1) + fibonacci(n-2)".toList

/-- A single line that is simultaneously a C-family loop header and a match of
the recursive-call regex (it contains `while (` and the shape `n-1` inside
parentheses). -/
def whileMinusInput : List Char := "while(n-1)\x7b".toList

/-! ## Claim C1 -/

/-- Claim C1 is false on the code: for the three-line single `for` loop input
analyzed with language tag `cpp`, `analyze` does not return overall time
`O(n)` and does not return score 90 (a single non-nested loop emits no
pattern at all, so the aggregate fold never leaves its initial state). -/
theorem C1_counterexample :
    (analyze loopInput "cpp".toList).overall.time ≠ "O(n)" ∧
      (analyze loopInput "cpp".toList).overall.score ≠ 90 := by
  decide

/-- Amended claim C1: for the three-line single `for` loop input with tag
`cpp`, `analyze` returns overall time `O(1)`, score 100, and at least one
line record with severity `medium` (the loop header line). -/
theorem C1_amended :
    (analyze loopInput "cpp".toList).overall.time = "O(1)" ∧
      (analyze loopInput "cpp".toList).overall.score = 100 ∧
      (analyze loopInput "cpp".toList).lineByLine.any
        (fun lc => lc.severity = Severity.medium) = true := by
  decide

/-! ## Claim C2, counterexample part -/

/-- Claim C2 is false on the code: on the two-line unbalanced nested-loop
input the detected `nested` pattern has `endLine = 3` although the input has
only 2 lines (the scan runs off the end of the input and reports
`currentLine + 1` one past the last 0-based index). -/
theorem C2_counterexample :
    ((analyze unbalancedInput "cpp".toList).patterns.filter
        (fun p => p.type = PatternType.nested)).any
      (fun p => decide ((splitLines unbalancedInput).length < p.endLine)) = true := by
  decide

/-! ## Claim C3 -/

/-- Claim C3 is false on the code: with the unrecognized tag `ruby` the
C-family loop line `for (int i = 0; i < n; i++) {` is not classified as a
loop (there is no fallback), and `analyze` on the Scenario-A input under
`ruby` differs from its result under `cpp`. -/
theorem C3_counterexample :
    isLoopLine (lowerList "ruby".toList) "for (int i = 0; i < n; i++) \x7b".toList = false ∧
      analyze loopInput "ruby".toList ≠ analyze loopInput "cpp".toList := by
  decide

/-- Amended claim C3: for every input and language tag whose lowercasing is
outside the recognized set `{cpp, java, python}` and is not one of the two
`Object.prototype` property names `constructor` and `__proto__` (on those
two tags the source throws a TypeError from `pattern.test` instead of
returning a value, an error path outside this total embedding), both loop
recognizers (Detector and Optimizer) classify no line whatsoever as a loop
header: the lookup misses and `isLoop` returns `false` instead of falling
back to the C-family pattern, so results may differ from the `cpp` tag.  The
fourth hypothesis does no computational work in the model — it exactly
carves the theorem's domain down to the tags on which the source really does
return `false`. -/
theorem C3_amended (code language : List Char)
    (h1 : lowerList language ≠ "cpp".toList)
    (h2 : lowerList language ≠ "java".toList)
    (h3 : lowerList language ≠ "python".toList)
    (_h4 : lowerList language ∉ protoChainKeys) :
    ∀ line : List Char,
      (ComplexityDetector.init code language).isLoop line = false ∧
        ∀ a : ComplexityAnalysis, (AIOptimizer.init code language a).isLoop line = false := by
  intro line
  constructor
  · simp only [ComplexityDetector.isLoop, ComplexityDetector.init, isLoopLine]
    rw [if_neg h1, if_neg h2, if_neg h3]
  · intro a
    simp only [AIOptimizer.isLoop, AIOptimizer.init, isLoopLine]
    rw [if_neg h1, if_neg h2, if_neg h3]

/-- Witness for `C3_amended` at the concrete tag `ruby` (unrecognized and not
an `Object.prototype` member name) and the claim's loop header line. -/
theorem C3_amended_witness :
    (ComplexityDetector.init loopInput "ruby".toList).isLoop
        "for (int i = 0; i < n; i++) \x7b".toList = false ∧
      (AIOptimizer.init loopInput "ruby".toList default).isLoop
        "for (int i = 0; i < n; i++) \x7b".toList = false := by
  have h := C3_amended loopInput "ruby".toList (by decide) (by decide) (by decide) (by decide)
    "for (int i = 0; i < n; i++) \x7b".toList
  exact ⟨h.1, h.2 default⟩

/-! ## Claim C4 -/

/-- Claim C4 is false on the code: for the Python fibonacci input the overall
score is not 60 — both the `def` line and the recursive-call line emit an
`O(2^n)` recursion pattern, so 40 is subtracted twice. -/
theorem C4_counterexample :
    (analyze fibInput "python".toList).overall.score ≠ 60 ∧
      (analyze fibInput "python".toList).overall.score = 20 := by
  decide

/-- Amended claim C4: for the Python fibonacci input, `analyze` produces
recursion patterns of complexity `O(2^n)` (one for the `def` line and one for
the call line), an overall score of 20 (baseline 100 minus 40 twice), and a
high-priority suggestion at line 1 titled
`Implement memoization for recursive function` whose example string contains
the extracted name `fibonacci`. -/
theorem C4_amended :
    (analyze fibInput "python".toList).patterns.any
        (fun p => p.type = PatternType.recursion && p.complexity = "O(2^n)") = true ∧
      (analyze fibInput "python".toList).patterns.length = 2 ∧
      (analyze fibInput "python".toList).overall.score = 20 ∧
      (analyze fibInput "python".toList).suggestions.any
        (fun s => s.line = 1 && s.title = "Implement memoization for recursive function" &&
          s.priority = Severity.high &&
          inclS "fibonacci" (s.exampleText.getD "").toList) = true := by
  decide

/-! ## Claim C9 -/

/-- Claim C9: the Optimizer's suggestion list depends only on the raw code
text and the language tag — for any two analysis values handed to its
constructor, `generateAISuggestions` returns the same list. -/
theorem C9_optimizer_ignores_analysis (code language : List Char)
    (a1 a2 : ComplexityAnalysis) :
    (AIOptimizer.init code language a1).generateAISuggestions =
      (AIOptimizer.init code language a2).generateAISuggestions := rfl

/-! ## Claim C10, counterexample part -/

/-- Claim C10 is false on the code in its `exactly when` direction: the line
`while(n-1){` matches the recursive-call heuristic, yet its line record has
severity `medium`, not `high`, because the loop branch is tested first. -/
theorem C10_counterexample :
    isRecursiveCall (trimList ((splitLines whileMinusInput).getD 0 [])) = true ∧
      ((analyze whileMinusInput "cpp".toList).lineByLine.getD 0 default).severity ≠
        Severity.high ∧
      ((analyze whileMinusInput "cpp".toList).lineByLine.getD 0 default).severity =
        Severity.medium := by
  decide

/-! ## Claim C5 -/

/-- Claim C5: the aggregate fold has last-writer-wins semantics.  A final
pattern whose label contains `n^` always overwrites the time label with
`O(n^e)` for its extracted exponent, regardless of every earlier pattern; a
final `O(n)` pattern updates the label only when the current label is still
`O(1)`; and consequently an `O(2^n)` pattern followed by an `O(n^2)` pattern
yields time `O(n^2)` rather than the worst label `O(2^n)`. -/
theorem C5_last_pattern_wins :
    (∀ (ps : List ComplexityPattern) (p : ComplexityPattern),
        inclS "n^" p.complexity.toList = true →
        (calculateOverallComplexity (ps ++ [p])).time =
          "O(n^" ++ Nat.repr (extractExponent p.complexity.toList) ++ ")") ∧
    (∀ (ps : List ComplexityPattern) (p : ComplexityPattern),
        p.complexity = "O(n)" →
        (calculateOverallComplexity (ps ++ [p])).time =
          (if (calculateOverallComplexity ps).time = "O(1)" then "O(n)"
           else (calculateOverallComplexity ps).time)) ∧
    (∀ (p q : ComplexityPattern), p.complexity = "O(2^n)" → q.complexity = "O(n^2)" →
        (calculateOverallComplexity [p, q]).time = "O(n^2)") := by
  have ha : ∀ (ps : List ComplexityPattern) (p : ComplexityPattern),
      inclS "n^" p.complexity.toList = true →
      (calculateOverallComplexity (ps ++ [p])).time =
        "O(n^" ++ Nat.repr (extractExponent p.complexity.toList) ++ ")" := by
    intro ps p h
    simp only [calculateOverallComplexity, List.foldl_append, List.foldl_cons, List.foldl_nil]
    simp only [overallStep, h]
    simp
  refine ⟨ha, ?_, ?_⟩
  · intro ps p h
    simp only [calculateOverallComplexity, List.foldl_append, List.foldl_cons, List.foldl_nil]
    simp only [overallStep, h]
    rw [if_neg (by decide), if_neg (by decide), if_neg (by decide)]
    by_cases hc : (List.foldl overallStep ("O(1)", 100) ps).1 = "O(1)"
    · simp [hc]
    · simp [hc]
  · intro p q h1 h2
    have h := ha [p] q (by rw [h2]; decide)
    rw [show ([p] ++ [q] : List ComplexityPattern) = [p, q] from rfl, h2] at h
    rw [h]
    decide

/-- Witness for `C5_last_pattern_wins`: the theorem applied to concrete
pattern lists (an `O(n^3)` pattern after an empty prefix, an `O(n)` pattern
after an empty prefix, and the claim's `O(2^n)`-then-`O(n^2)` pair). -/
theorem C5_last_pattern_wins_witness :
    (calculateOverallComplexity
        ([] ++ [⟨PatternType.nested, 1, 2, "O(n^3)", "d", Severity.high⟩])).time = "O(n^3)" ∧
      (calculateOverallComplexity
        ([] ++ [⟨PatternType.loop, 1, 1, "O(n)", "d", Severity.medium⟩])).time = "O(n)" ∧
      (calculateOverallComplexity
        [⟨PatternType.recursion, 1, 1, "O(2^n)", "d", Severity.high⟩,
         ⟨PatternType.nested, 2, 3, "O(n^2)", "d", Severity.medium⟩]).time = "O(n^2)" := by
  refine ⟨?_, ?_, ?_⟩
  · have h := C5_last_pattern_wins.1 []
      ⟨PatternType.nested, 1, 2, "O(n^3)", "d", Severity.high⟩ (by decide)
    rw [h]; decide
  · have h := C5_last_pattern_wins.2.1 []
      ⟨PatternType.loop, 1, 1, "O(n)", "d", Severity.medium⟩ (by decide)
    rw [h]; decide
  · exact C5_last_pattern_wins.2.2
      ⟨PatternType.recursion, 1, 1, "O(2^n)", "d", Severity.high⟩
      ⟨PatternType.nested, 2, 3, "O(n^2)", "d", Severity.medium⟩ rfl rfl

/-! ## Claim C8 -/

/-- Every step of the aggregate fold only ever decreases the score. -/
theorem overallStep_score_le (acc : String × Int) (p : ComplexityPattern) :
    (overallStep acc p).2 ≤ acc.2 := by
  simp only [overallStep]
  split
  · dsimp only; omega
  · split
    · dsimp only; omega
    · split
      · dsimp only; omega
      · split
        · dsimp only; omega
        · exact le_refl _

/-- The aggregate fold never increases the score component. -/
theorem foldl_overallStep_le (ps : List ComplexityPattern) :
    ∀ acc : String × Int, (ps.foldl overallStep acc).2 ≤ acc.2 := by
  induction ps with
  | nil => intro acc; simp
  | cons p ps ih =>
    intro acc
    exact le_trans (ih (overallStep acc p)) (overallStep_score_le acc p)

/-- Claim C8: for every input and language tag, the overall score returned by
`analyze` is an integer between 0 and 100, and the space label is always
`O(1)` (the fold starts at 100, only subtracts non-negative amounts, and is
clamped from below by `Math.max(0, score)`). -/
theorem C8_score_bounds (code language : List Char) :
    0 ≤ (analyze code language).overall.score ∧
      (analyze code language).overall.score ≤ 100 ∧
      (analyze code language).overall.space = "O(1)" := by
  have h := foldl_overallStep_le
    ((ComplexityDetector.init code language).detectPatterns) ("O(1)", 100)
  refine ⟨?_, ?_, rfl⟩
  · simp only [analyze, ComplexityDetector.analyze, calculateOverallComplexity]
    exact le_max_left 0 _
  · simp only [analyze, ComplexityDetector.analyze, calculateOverallComplexity]
    omega

/-! ## Sorting and deduplication lemmas (for claims C6 and C7) -/

/-- Stable insertion is a permutation. -/
theorem insertDesc_perm (a : Suggestion) :
    ∀ l : List Suggestion, List.Perm (insertDesc a l) (a :: l) := by
  intro l
  induction l with
  | nil => exact List.Perm.refl _
  | cons b l ih =>
    simp only [insertDesc]
    split
    · exact (ih.cons b).trans (List.Perm.swap a b l)
    · exact List.Perm.refl _

/-- The stable sort is a permutation. -/
theorem sortByPriority_perm : ∀ l : List Suggestion, List.Perm (sortByPriority l) l := by
  intro l
  induction l with
  | nil => exact List.Perm.refl _
  | cons a l ih => exact (insertDesc_perm a (sortByPriority l)).trans (ih.cons a)

/-- Stable insertion preserves the descending-rank pairwise order. -/
theorem insertDesc_sorted (a : Suggestion) :
    ∀ l : List Suggestion,
      l.Pairwise (fun x y => priorityRank y.priority ≤ priorityRank x.priority) →
      (insertDesc a l).Pairwise
        (fun x y => priorityRank y.priority ≤ priorityRank x.priority) := by
  intro l
  induction l with
  | nil => intro _; simp [insertDesc]
  | cons b l ih =>
    intro h
    rw [List.pairwise_cons] at h
    simp only [insertDesc]
    split
    · rename_i hlt
      rw [List.pairwise_cons]
      refine ⟨fun c hc => ?_, ih h.2⟩
      rcases List.mem_cons.1 ((insertDesc_perm a l).mem_iff.1 hc) with rfl | hcl
      · exact Nat.le_of_lt hlt
      · exact h.1 c hcl
    · rename_i hge
      rw [List.pairwise_cons]
      refine ⟨fun c hc => ?_, List.pairwise_cons.2 h⟩
      rcases List.mem_cons.1 hc with rfl | hcl
      · exact Nat.le_of_not_lt hge
      · exact le_trans (h.1 c hcl) (Nat.le_of_not_lt hge)

/-- The stable sort produces a descending-rank pairwise-ordered list. -/
theorem sortByPriority_sorted : ∀ l : List Suggestion,
    (sortByPriority l).Pairwise
      (fun x y => priorityRank y.priority ≤ priorityRank x.priority) := by
  intro l
  induction l with
  | nil => simp [sortByPriority]
  | cons a l ih => exact insertDesc_sorted a (sortByPriority l) ih

/-- Inserting an element commutes with filtering by an exact rank: the
elements skipped over have strictly greater rank, so they never share the
rank of the inserted element. -/
theorem insertDesc_filter (k : Nat) (a : Suggestion) :
    ∀ l : List Suggestion,
      (insertDesc a l).filter (fun s => priorityRank s.priority == k) =
        if priorityRank a.priority = k then
          a :: l.filter (fun s => priorityRank s.priority == k)
        else l.filter (fun s => priorityRank s.priority == k) := by
  intro l
  induction l with
  | nil =>
    simp only [insertDesc]
    by_cases h : priorityRank a.priority = k <;> simp [List.filter_cons, h]
  | cons b l ih =>
    simp only [insertDesc]
    split
    · rename_i hlt
      by_cases hak : priorityRank a.priority = k
      · have hbk : ¬ priorityRank b.priority = k := by omega
        simp only [List.filter_cons, ih, hak, if_pos, beq_iff_eq, hbk]
        simp [hbk]
      · simp only [List.filter_cons, ih, hak]
        simp [hak]
    · rename_i hge
      by_cases hak : priorityRank a.priority = k <;>
        simp [List.filter_cons, hak]

/-- The stable sort does not change the sublist of any fixed rank — equal
priorities keep their relative order. -/
theorem sortByPriority_filter (k : Nat) :
    ∀ l : List Suggestion,
      (sortByPriority l).filter (fun s => priorityRank s.priority == k) =
        l.filter (fun s => priorityRank s.priority == k) := by
  intro l
  induction l with
  | nil => rfl
  | cons a l ih =>
    rw [sortByPriority, insertDesc_filter k a (sortByPriority l), ih, List.filter_cons]
    by_cases h : priorityRank a.priority = k <;> simp [h]

/-- Every suggestion kept by the deduplication filter has a key outside the
initial seen set. -/
theorem dedupAux_key_not_seen :
    ∀ (l : List Suggestion) (seen : List String) (s : Suggestion),
      s ∈ dedupAux seen l → suggKey s ∉ seen := by
  intro l
  induction l with
  | nil => intro seen s h; cases h
  | cons t rest ih =>
    intro seen s h
    simp only [dedupAux] at h
    split at h
    · exact ih seen s h
    · rcases List.mem_cons.1 h with rfl | h2
      · rename_i hnc
        exact hnc
      · intro hmem
        exact ih _ s h2 (List.mem_cons_of_mem _ hmem)

/-- The deduplication filter yields pairwise distinct keys. -/
theorem dedupAux_pairwise :
    ∀ (l : List Suggestion) (seen : List String),
      (dedupAux seen l).Pairwise fun a b => suggKey a ≠ suggKey b := by
  intro l
  induction l with
  | nil => intro seen; simp [dedupAux]
  | cons t rest ih =>
    intro seen
    simp only [dedupAux]
    split
    · exact ih seen
    · rw [List.pairwise_cons]
      refine ⟨fun b hb heq => ?_, ih _⟩
      exact dedupAux_key_not_seen rest (suggKey t :: seen) b hb
        (by rw [← heq]; exact List.mem_cons_self _ _)

/-- Filtering the deduplicated list by a key already seen yields nothing. -/
theorem dedupAux_filter_mem (k : String) (l : List Suggestion) (seen : List String)
    (hk : k ∈ seen) :
    (dedupAux seen l).filter (fun s => suggKey s == k) = [] := by
  rw [List.filter_eq_nil_iff]
  intro s hs
  simp only [beq_iff_eq]
  intro heq
  exact dedupAux_key_not_seen l seen s hs (heq ▸ hk)

/-- Filtering the deduplicated list by an unseen key keeps exactly the first
occurrence of that key in the input. -/
theorem dedupAux_filter_take (k : String) :
    ∀ (l : List Suggestion) (seen : List String), k ∉ seen →
      (dedupAux seen l).filter (fun s => suggKey s == k) =
        (l.filter (fun s => suggKey s == k)).take 1 := by
  intro l
  induction l with
  | nil => intro seen _; rfl
  | cons t rest ih =>
    intro seen hk
    simp only [dedupAux]
    split
    · rename_i hmem
      rw [ih seen hk, List.filter_cons]
      have hbe : ¬ suggKey t = k := fun heq => hk (heq ▸ hmem)
      simp [hbe]
    · rename_i hnmem
      by_cases hek : suggKey t = k
      · subst hek
        simp [List.filter_cons,
          dedupAux_filter_mem (suggKey t) rest (suggKey t :: seen) (List.mem_cons_self _ _)]
      · rw [List.filter_cons, List.filter_cons]
        simp only [beq_iff_eq, hek, if_neg, if_false]
        have : k ∉ suggKey t :: seen := by
          intro hc
          rcases List.mem_cons.1 hc with rfl | hc2
          · exact hek rfl
          · exact hk hc2
        simpa [hek] using ih (suggKey t :: seen) this

/-- A permutation onto a list of length at most one is an equality. -/
theorem perm_eq_of_length_le_one {l₁ l₂ : List Suggestion} (h : List.Perm l₁ l₂)
    (hl : l₂.length ≤ 1) : l₁ = l₂ := by
  match l₂, hl with
  | [], _ => exact h.eq_nil
  | [a], _ => exact List.perm_singleton.1 h

/-! ## Claim C6 -/

/-- Claim C6: the final suggestion list of `analyze` has no two entries
sharing a `(line, title)` pair, and for every deduplication key the final
list retains exactly the first input occurrence of that key (Detector
suggestions precede Optimizer suggestions in the input concatenation
`allSuggestions`). -/
theorem C6_dedup_first_kept (code language : List Char) :
    ((analyze code language).suggestions.Pairwise fun a b =>
        ¬(a.line = b.line ∧ a.title = b.title)) ∧
      ∀ k : String,
        (analyze code language).suggestions.filter (fun s => suggKey s == k) =
          (((ComplexityDetector.init code language).allSuggestions).filter
            (fun s => suggKey s == k)).take 1 := by
  have hs : (analyze code language).suggestions =
      sortByPriority (dedupAux [] ((ComplexityDetector.init code language).allSuggestions)) :=
    rfl
  constructor
  · rw [hs]
    have hsym : ∀ {x y : Suggestion}, suggKey x ≠ suggKey y → suggKey y ≠ suggKey x :=
      fun h => h.symm
    have hpw := ((sortByPriority_perm
      (dedupAux [] ((ComplexityDetector.init code language).allSuggestions))).pairwise_iff
        hsym).2 (dedupAux_pairwise _ [])
    exact hpw.imp fun hne hpair => hne (by
      simp only [suggKey, hpair.1, hpair.2])
  · intro k
    rw [hs]
    have hperm := (sortByPriority_perm
      (dedupAux [] ((ComplexityDetector.init code language).allSuggestions))).filter
        (fun s => suggKey s == k)
    rw [dedupAux_filter_take k _ [] (by simp)] at hperm
    exact perm_eq_of_length_le_one hperm
      (by simp [Nat.min_le_left])

/-! ## Claim C7 -/

/-- Claim C7: the final suggestion list of `analyze` is sorted in
non-increasing priority rank, and within each rank the relative order of the
(pre-sort) deduplicated list is preserved. -/
theorem C7_sorted_stable (code language : List Char) :
    List.Chain' (fun a b => priorityRank b.priority ≤ priorityRank a.priority)
        (analyze code language).suggestions ∧
      ∀ k : Nat,
        (analyze code language).suggestions.filter
            (fun s => priorityRank s.priority == k) =
          (dedupAux [] ((ComplexityDetector.init code language).allSuggestions)).filter
            (fun s => priorityRank s.priority == k) := by
  constructor
  · exact (sortByPriority_sorted
      (dedupAux [] ((ComplexityDetector.init code language).allSuggestions))).chain'
  · intro k
    exact sortByPriority_filter k
      (dedupAux [] ((ComplexityDetector.init code language).allSuggestions))

/-! ## Nested-structure scan lemmas (for claim C2) -/

/-- The scan never moves its line index backwards. -/
theorem nestedScanAux_fst_ge (isLp : List Char → Bool) (s : Nat) :
    ∀ (rest : List (List Char)) (cur depth maxD : Nat) (brace : Int),
      cur ≤ (nestedScanAux isLp s rest cur depth maxD brace).1 := by
  intro rest
  induction rest with
  | nil => intro cur depth maxD brace; exact le_refl _
  | cons l rest ih =>
    intro cur depth maxD brace
    simp only [nestedScanAux]
    split
    · exact le_refl _
    · exact le_trans (Nat.le_succ cur) (ih (cur + 1) _ _ _)

/-- The scan stops at or before the end of the remaining lines. -/
theorem nestedScanAux_fst_le (isLp : List Char → Bool) (s : Nat) :
    ∀ (rest : List (List Char)) (cur depth maxD : Nat) (brace : Int),
      (nestedScanAux isLp s rest cur depth maxD brace).1 ≤ cur + rest.length := by
  intro rest
  induction rest with
  | nil => intro cur depth maxD brace; simp [nestedScanAux]
  | cons l rest ih =>
    intro cur depth maxD brace
    simp only [nestedScanAux]
    split
    · show cur ≤ cur + (l :: rest).length
      exact Nat.le_add_right _ _
    · have h := ih (cur + 1) (nestedStep isLp l depth maxD brace).1
        (nestedStep isLp l depth maxD brace).2.1 (nestedStep isLp l depth maxD brace).2.2
      simp only [List.length_cons]
      omega

/-- Shape of every pattern emitted by `analyzeNestedStructure`: kind
`nested`, 1-based `startLine` one past the 0-based start index, `endLine`
strictly beyond `startLine` but at most one past the number of lines, and an
`O(n^k)` label with `k ≥ 2`. -/
theorem analyzeNestedStructure_spec (d : ComplexityDetector) (i : Nat) (p : ComplexityPattern)
    (h : d.analyzeNestedStructure i = some p) :
    p.type = PatternType.nested ∧ p.startLine = i + 1 ∧ i + 1 ≤ p.endLine ∧
      p.endLine ≤ d.lines.length + 1 ∧
      ∃ k, 2 ≤ k ∧ p.complexity = "O(n^" ++ Nat.repr k ++ ")" := by
  by_cases hle : i ≤ d.lines.length
  · simp only [ComplexityDetector.analyzeNestedStructure] at h
    split at h
    · rename_i hgt
      have hp := Option.some_inj.1 h
      subst hp
      refine ⟨rfl, rfl, ?_, ?_, ⟨_, hgt, rfl⟩⟩
      · show i + 1 ≤ (nestedScanAux d.isLoop i (d.lines.drop i) i 0 1 0).1 + 1
        have := nestedScanAux_fst_ge d.isLoop i (d.lines.drop i) i 0 1 0
        omega
      · show (nestedScanAux d.isLoop i (d.lines.drop i) i 0 1 0).1 + 1 ≤ d.lines.length + 1
        have h2 := nestedScanAux_fst_le d.isLoop i (d.lines.drop i) i 0 1 0
        rw [List.length_drop] at h2
        omega
    · cases h
  · exfalso
    simp only [ComplexityDetector.analyzeNestedStructure] at h
    rw [List.drop_eq_nil_of_le (by omega)] at h
    simp [nestedScanAux] at h

/-- For every fuel value, the scan returns the empty pattern list as soon as
the index reaches the end of the lines. -/
theorem detectPatternsFuel_ge (d : ComplexityDetector) :
    ∀ (fuel i : Nat), d.lines.length ≤ i → d.detectPatternsFuel fuel i = [] := by
  intro fuel i h
  cases fuel with
  | zero => rfl
  | succ g =>
    simp only [ComplexityDetector.detectPatternsFuel]
    rw [if_neg (by omega)]

/-- The fuel parameter of `detectPatternsFuel` is irrelevant as soon as it
exceeds the number of remaining lines: the scan index strictly increases at
every step, so the fuel-exhaustion branch is never taken. -/
theorem detectPatternsFuel_irrelevant (d : ComplexityDetector) :
    ∀ (f1 f2 i : Nat), d.lines.length < i + f1 → d.lines.length < i + f2 →
      d.detectPatternsFuel f1 i = d.detectPatternsFuel f2 i := by
  intro f1
  induction f1 with
  | zero =>
    intro f2 i h1 h2
    rw [detectPatternsFuel_ge d 0 i (by omega), detectPatternsFuel_ge d f2 i (by omega)]
  | succ g ih =>
    intro f2 i h1 h2
    rcases f2 with _ | g2
    · rw [detectPatternsFuel_ge d _ i (by omega), detectPatternsFuel_ge d _ i (by omega)]
    · by_cases hi : i < d.lines.length
      · simp only [ComplexityDetector.detectPatternsFuel]
        rw [if_pos hi, if_pos hi]
        cases hopt : (if d.isLoop (trimList (d.lines.getD i [])) then
            d.analyzeNestedStructure i else none) with
        | some p =>
          have hEnd : i + 1 ≤ p.endLine := by
            by_cases hl : d.isLoop (trimList (d.lines.getD i []))
            · rw [if_pos hl] at hopt
              exact (analyzeNestedStructure_spec d i p hopt).2.2.1
            · rw [if_neg hl] at hopt
              cases hopt
          simp only [hopt]
          rw [ih g2 p.endLine (by omega) (by omega)]
        | none =>
          simp only [hopt]
          rw [ih g2 (i + 1) (by omega) (by omega)]
      · simp only [ComplexityDetector.detectPatternsFuel]
        rw [if_neg hi, if_neg hi]

/-- Every `nested` pattern in the detect-patterns scan output comes from a
successful `analyzeNestedStructure` call. -/
theorem detectPatternsFuel_nested_spec (d : ComplexityDetector) :
    ∀ (fuel i : Nat) (p : ComplexityPattern), p ∈ d.detectPatternsFuel fuel i →
      p.type = PatternType.nested →
      ∃ j, d.analyzeNestedStructure j = some p := by
  intro fuel
  induction fuel with
  | zero => intro i p hp; cases hp
  | succ g ih =>
    intro i p hp hty
    simp only [ComplexityDetector.detectPatternsFuel] at hp
    split at hp
    · split at hp
      · rename_i q hsome
        rcases List.mem_cons.1 hp with rfl | h2
        · by_cases hl : d.isLoop (trimList (d.lines.getD i []))
          · rw [if_pos hl] at hsome
            exact ⟨i, hsome⟩
          · rw [if_neg hl] at hsome
            cases hsome
        · exact ih _ p h2 hty
      · split at hp
        · rcases List.mem_cons.1 hp with rfl | h2
          · cases hty
          · exact ih _ p h2 hty
        · exact ih _ p hp hty
    · cases hp

/-! ## Claim C2, amended part -/

/-- Amended claim C2: every `nested` pattern produced by `analyze` satisfies
`1 ≤ startLine ≤ endLine ≤ lineCount + 1` (the upper bound is `lineCount + 1`
rather than `lineCount`, as the counterexample forces: with unbalanced braces
the scan runs one past the final line) and carries a complexity label
`O(n^k)` with `k ≥ 2`. -/
theorem C2_amended (code language : List Char) (p : ComplexityPattern)
    (hmem : p ∈ (analyze code language).patterns)
    (hty : p.type = PatternType.nested) :
    1 ≤ p.startLine ∧ p.startLine ≤ p.endLine ∧
      p.endLine ≤ (splitLines code).length + 1 ∧
      ∃ k, 2 ≤ k ∧ p.complexity = "O(n^" ++ Nat.repr k ++ ")" := by
  have hmem' : p ∈ (ComplexityDetector.init code language).detectPatternsFuel
      ((ComplexityDetector.init code language).lines.length + 1) 0 := hmem
  obtain ⟨j, hj⟩ := detectPatternsFuel_nested_spec _ _ _ p hmem' hty
  obtain ⟨_, hstart, hle1, hle2, k, hk2, hkc⟩ := analyzeNestedStructure_spec _ j p hj
  exact ⟨by omega, by omega, hle2, ⟨k, hk2, hkc⟩⟩

/-- Witness for `C2_amended`: the nested pattern detected on the unbalanced
two-line input satisfies the amended bounds. -/
theorem C2_amended_witness :
    1 ≤ (3 : Nat) - 2 ∧
      ((⟨PatternType.nested, 1, 3, "O(n^2)", "Nested loops with depth 2",
          Severity.medium⟩ : ComplexityPattern) ∈
        (analyze unbalancedInput "cpp".toList).patterns) ∧
      (1 ≤ (1 : Nat) ∧ (1 : Nat) ≤ 3 ∧ (3 : Nat) ≤ (splitLines unbalancedInput).length + 1 ∧
        ∃ k, 2 ≤ k ∧
          ("O(n^2)" : String) = "O(n^" ++ Nat.repr k ++ ")") := by
  refine ⟨by decide, by decide, ?_⟩
  exact C2_amended unbalancedInput "cpp".toList
    ⟨PatternType.nested, 1, 3, "O(n^2)", "Nested loops with depth 2", Severity.medium⟩
    (by decide) rfl

/-! ## Claim C10, amended part -/

/-- Amended claim C10: every line record of `analyze` carries a complexity
label in `{O(1), O(n), O(2^n)}` (the per-line `O(n^d)` branch is unreachable
since the nested-depth helper always returns 0), and a line record has
severity `high` exactly when its trimmed line is not recognized as a loop
header and matches the recursive-call heuristic. -/
theorem C10_amended (code language : List Char) (lc : LineComplexity)
    (hmem : lc ∈ (analyze code language).lineByLine) :
    (lc.complexity = "O(1)" ∨ lc.complexity = "O(n)" ∨ lc.complexity = "O(2^n)") ∧
      (lc.severity = Severity.high ↔
        ((ComplexityDetector.init code language).isLoop (trimList lc.code) = false ∧
          isRecursiveCall (trimList lc.code) = true)) := by
  have hmem' : lc ∈ (ComplexityDetector.init code language).analyzeLines := hmem
  simp only [ComplexityDetector.analyzeLines, List.mem_map] at hmem'
  obtain ⟨pr, hpr, rfl⟩ := hmem'
  simp only [ComplexityDetector.getLineComplexity, getNestedLoopDepth]
  by_cases h1 : (ComplexityDetector.init code language).isLoop (trimList pr.2)
  · simp [h1]
  · by_cases h2 : isRecursiveCall (trimList pr.2)
    · simp [h1, h2]
    · by_cases h3 : isCollectionOperation (trimList pr.2)
      · simp [h1, h2, h3]
      · by_cases h4 : isHashOperation (trimList pr.2)
        · simp [h1, h2, h3, h4]
        · simp [h1, h2, h3, h4]

/-- Witness for `C10_amended`: the first line record of the Python fibonacci
input (the `def` line, severity `high`). -/
theorem C10_amended_witness :
    ((⟨1, "def fibonacci(n):".toList, "O(2^n)", "Potential exponential recursion",
        Severity.high⟩ : LineComplexity) ∈
      (analyze fibInput "python".toList).lineByLine) ∧
      (("O(2^n)" : String) = "O(1)" ∨ ("O(2^n)" : String) = "O(n)" ∨
        ("O(2^n)" : String) = "O(2^n)") ∧
      (Severity.high = Severity.high ↔
        ((ComplexityDetector.init fibInput "python".toList).isLoop
            (trimList "def fibonacci(n):".toList) = false ∧
          isRecursiveCall (trimList "def fibonacci(n):".toList) = true)) := by
  refine ⟨by decide, ?_⟩
  exact C10_amended fibInput "python".toList
    ⟨1, "def fibonacci(n):".toList, "O(2^n)", "Potential exponential recursion", Severity.high⟩
    (by decide)

end CodeAnalysis
